import Mathlib

/-!
Verification development for the flexiai-toolsmith streaming core.

Shallow embedding of the event-streaming components of the repository:
the tool-call executor (`flexiai/core/handlers/tool_call_executor.py`),
the token-budget truncation utility (`flexiai/utils/context_utils.py`),
the requires-action batch loop and thread validation
(`flexiai/core/handlers/event_handler.py`), the event dispatch table
(`flexiai/core/handlers/event_dispatcher.py`), the thread/run registry
(`flexiai/core/handlers/run_thread_manager.py`) and the rolling event
buffer (`flexiai/core/events/rolling_event_buffer.py`).

Python dicts are embedded as insertion-ordered association lists
(assignment updates an existing key in place, otherwise appends at the
end, matching both `dict` and `collections.OrderedDict` semantics);
exceptions are embedded as `Except` results; the remote API client and
the tiktoken tokenizer are embedded as explicit function parameters.
-/

/-- JSON-serializable values: the results tool callables return and the
payloads `json.dumps` serializes. -/
inductive JsonVal where
  | null : JsonVal
  | bool (b : Bool) : JsonVal
  | num (n : Int) : JsonVal
  | str (s : String) : JsonVal
  | arr (xs : List JsonVal) : JsonVal
  | obj (fields : List (String × JsonVal)) : JsonVal

/-- One hexadecimal digit. -/
def hexDigit (n : Nat) : Char :=
  if n < 10 then Char.ofNat (48 + n) else Char.ofNat (87 + n)

/-- Four-digit hexadecimal rendering used for JSON control-character escapes. -/
def hex4 (n : Nat) : String :=
  String.mk [hexDigit (n / 4096 % 16), hexDigit (n / 256 % 16),
             hexDigit (n / 16 % 16), hexDigit (n % 16)]

/-- Escape of a single character inside a JSON string, as `json.dumps`
emits it with `ensure_ascii=False`. -/
def escapeJsonChar (c : Char) : String :=
  if c = '"' then "\\\""
  else if c = '\\' then "\\\\"
  else if c = '\n' then "\\n"
  else if c = '\t' then "\\t"
  else if c = '\r' then "\\r"
  else if c.toNat < 32 then "\\u" ++ hex4 c.toNat
  else String.singleton c

/-- A JSON string literal: quotes around the escaped characters. -/
def dumpsString (s : String) : String :=
  "\"" ++ String.join (s.data.map escapeJsonChar) ++ "\""

mutual

/-- `json.dumps(payload, ensure_ascii=False)` on a JSON-serializable value
(default separators, as in `flexiai/core/handlers/tool_call_executor.py`). -/
def dumps : JsonVal → String
  | JsonVal.null => "null"
  | JsonVal.bool b => if b then "true" else "false"
  | JsonVal.num n => toString n
  | JsonVal.str s => dumpsString s
  | JsonVal.arr xs => "[" ++ dumpsElems xs ++ "]"
  | JsonVal.obj fs => "\x7b" ++ dumpsFields fs ++ "\x7d"

/-- Comma-separated serialization of JSON array elements. -/
def dumpsElems : List JsonVal → String
  | [] => ""
  | [x] => dumps x
  | x :: y :: xs => dumps x ++ ", " ++ dumpsElems (y :: xs)

/-- Comma-separated serialization of JSON object fields. -/
def dumpsFields : List (String × JsonVal) → String
  | [] => ""
  | [(k, v)] => dumpsString k ++ ": " ++ dumps v
  | (k, v) :: f :: fs => dumpsString k ++ ": " ++ dumps v ++ ", " ++ dumpsFields (f :: fs)

end

/-- Python `str()` of a value reaching `prepare_tool_output` with
`success=False`.  In the repository that value is always a Python string
(the caught exception text), for which `str()` is the identity; other
values are rendered via their serialization. -/
def pyStr : JsonVal → String
  | JsonVal.str s => s
  | j => dumps j

/-- `return_context` from `flexiai/utils/context_utils.py`, parameterized
by the tiktoken encoder/decoder pair (`enc.encode` / `enc.decode`).  If the
token count fits, the text is returned unchanged; otherwise the Python
slice `tokens[-max_tokens:]` is decoded (for `max_tokens = 0` that slice
is the whole list).  The fallback paths taken only when the tokenizer
itself raises are not modelled: `enc` and `dec` are total functions. -/
def return_context (enc : String → List Nat) (dec : List Nat → String)
    (text : String) (max_tokens : Nat) : String :=
  let tokens := enc text
  if tokens.length ≤ max_tokens then text
  else if max_tokens = 0 then dec tokens
  else dec (tokens.drop (tokens.length - max_tokens))

/-- A tool call as delivered in a requires-action payload: `id`,
`function.name` and the raw JSON text of `function.arguments`. -/
structure ToolCall where
  id : String
  fname : String
  args : String
deriving DecidableEq

/-- The record `prepare_tool_output` builds for API submission. -/
structure ToolOutput where
  tool_call_id : String
  output : String
deriving DecidableEq

/-- Keyword arguments decoded from a JSON arguments object. -/
def KwArgs := List (String × JsonVal)

/-- The `{status, message, result}` wrapper that `prepare_tool_output`
serializes (success and failure branches). -/
def payloadOf (result : JsonVal) (success : Bool) : JsonVal :=
  if success then
    JsonVal.obj [("status", JsonVal.bool true), ("message", JsonVal.str "Success"),
                 ("result", result)]
  else
    JsonVal.obj [("status", JsonVal.bool false), ("message", JsonVal.str (pyStr result)),
                 ("result", JsonVal.null)]

/-- `ToolCallExecutor.prepare_tool_output` from
`flexiai/core/handlers/tool_call_executor.py`: wrap the result, serialize
to JSON and truncate to the default 124000-token context budget. -/
def prepare_tool_output (enc : String → List Nat) (dec : List Nat → String)
    (tool_call : ToolCall) (result : JsonVal) (success : Bool) : ToolOutput :=
  let raw_json := dumps (payloadOf result success)
  let truncated := return_context enc dec raw_json 124000
  { tool_call_id := tool_call.id, output := truncated }

/-- `ToolCallExecutor.execute`: look the tool up in `agent_actions`, raise
`ValueError` (here: an error result) if absent, otherwise invoke it; an
exception from the callable propagates as an error result. -/
def ToolCallExecutor.execute (agent_actions : List (String × (KwArgs → Except String JsonVal)))
    (tool_name : String) (arguments : KwArgs) : Except String JsonVal :=
  match agent_actions.lookup tool_name with
  | none => Except.error ("Tool " ++ tool_name ++ " not found")
  | some action => action arguments

/-- One iteration of the `_handle_requires_action` loop in
`flexiai/core/handlers/event_handler.py`: decode the JSON arguments
(malformed JSON is caught and degrades to empty arguments), execute the
tool (an exception is caught: the result becomes the exception text and
success becomes false), and build the output entry. -/
def processToolCall (parse : String → Option KwArgs)
    (actions : List (String × (KwArgs → Except String JsonVal)))
    (enc : String → List Nat) (dec : List Nat → String) (tc : ToolCall) : ToolOutput :=
  let args := match parse tc.args with
    | some a => a
    | none => []
  match ToolCallExecutor.execute actions tc.fname args with
  | Except.ok result => prepare_tool_output enc dec tc result true
  | Except.error e => prepare_tool_output enc dec tc (JsonVal.str e) false

/-- The output list accumulated by the `for tc in tool_calls` loop of
`_handle_requires_action`, in iteration order. -/
def requiresActionOutputs (parse : String → Option KwArgs)
    (actions : List (String × (KwArgs → Except String JsonVal)))
    (enc : String → List Nat) (dec : List Nat → String) : List ToolCall → List ToolOutput
  | [] => []
  | tc :: rest =>
      processToolCall parse actions enc dec tc ::
        requiresActionOutputs parse actions enc dec rest

/-- Observable outcome of `_handle_requires_action`: the built output list
and the argument of each `submit_tool_outputs_stream` call made. -/
structure RequiresActionResult where
  outputs : List ToolOutput
  submissions : List (List ToolOutput)
deriving DecidableEq

/-- `_handle_requires_action` from `flexiai/core/handlers/event_handler.py`,
restricted to its observable effects on tool outputs: process every tool
call in order, then submit the full output list in a single
`submit_tool_outputs_stream` call. -/
def handle_requires_action (parse : String → Option KwArgs)
    (actions : List (String × (KwArgs → Except String JsonVal)))
    (enc : String → List Nat) (dec : List Nat → String)
    (tool_calls : List ToolCall) : RequiresActionResult :=
  let outs := requiresActionOutputs parse actions enc dec tool_calls
  { outputs := outs, submissions := [outs] }

/-- Insertion-ordered dictionary assignment `d[k] = v`: update an existing
key in place (Python dicts and `OrderedDict` keep the original position),
otherwise append at the end. -/
def dictInsert {α : Type} (l : List (String × α)) (k : String) (v : α) :
    List (String × α) :=
  if (l.lookup k).isSome then
    l.map (fun p => if p.1 = k then (k, v) else p)
  else l ++ [(k, v)]

/-- Dictionary deletion `del d[k]`. -/
def dictRemove {α : Type} (l : List (String × α)) (k : String) :
    List (String × α) :=
  l.filter (fun p => p.1 ≠ k)

/-- Python exceptions raised by the thread/run registry. -/
inductive PyError where
  | valueError (msg : String) : PyError
  | runtimeError (msg : String) : PyError
deriving DecidableEq

/-- A value of the `active_threads` map:
`{"thread_id": ..., "status": ...}`. -/
structure ThreadInfo where
  thread_id : String
  status : String
deriving DecidableEq

/-- Mutable state of `RunThreadManager` from
`flexiai/core/handlers/run_thread_manager.py`: the key-scoped thread map
and the per-thread set (here: insertion-ordered list) of seen message ids. -/
structure MgrState where
  active_threads : List (String × ThreadInfo)
  thread_message_tracking : List (String × List String)
deriving DecidableEq

/-- The scoping key: `f"{assistant_id}:{user_id}" if user_id else
assistant_id` (a `None` or empty user id is falsy). -/
def threadKey (assistant_id : String) (user_id : Option String) : String :=
  match user_id with
  | some u => if u ≠ "" then assistant_id ++ ":" ++ u else assistant_id
  | none => assistant_id

/-- Result of `get_or_create_thread`: the returned thread id or raised
exception, the registry state afterwards, and whether the remote
`threads.create` call was made. -/
structure GocResult where
  result : Except PyError String
  state : MgrState
  created_remote : Bool

/-- The creation tail of `get_or_create_thread`: call the remote
`client.beta.threads.create` (embedded as the `create` parameter: `ok`
with the fresh thread id, or `error` when the call raises), store the new
record on success, and wrap a failure in `RuntimeError`. -/
def gocCreate (create : Except Unit String) (st : MgrState)
    (key assistant_id : String) : GocResult :=
  match create with
  | Except.ok tid =>
      let threads := dictInsert st.active_threads key ⟨tid, "initialized"⟩
      { result := Except.ok tid,
        state := { st with active_threads := threads },
        created_remote := true }
  | Except.error _ =>
      { result := Except.error (PyError.runtimeError
          ("Unable to create thread for assistant " ++ assistant_id)),
        state := st,
        created_remote := true }

/-- `RunThreadManager.get_or_create_thread`: look up the key; if a record
exists and its thread still validates remotely (the `validate` parameter
embeds `client.beta.threads.retrieve` succeeding), return the cached id;
if it fails validation, delete the record; then create a fresh remote
thread and store it. -/
def get_or_create_thread (validate : String → Bool) (create : Except Unit String)
    (st : MgrState) (assistant_id : String) (user_id : Option String) : GocResult :=
  match st.active_threads.lookup (threadKey assistant_id user_id) with
  | some info =>
      if validate info.thread_id then
        { result := Except.ok info.thread_id, state := st, created_remote := false }
      else
        gocCreate create
          { st with active_threads :=
              dictRemove st.active_threads (threadKey assistant_id user_id) }
          (threadKey assistant_id user_id) assistant_id
  | none => gocCreate create st (threadKey assistant_id user_id) assistant_id

/-- `RunThreadManager.track_assistant_in_thread`: prefer the scoped key
when a truthy user id is given, falling back to the assistant-only key. -/
def track_assistant_in_thread (st : MgrState) (assistant_id : String)
    (user_id : Option String) : Option ThreadInfo :=
  match user_id with
  | some u =>
      if u ≠ "" then
        match st.active_threads.lookup (assistant_id ++ ":" ++ u) with
        | some info => some info
        | none => st.active_threads.lookup assistant_id
      else st.active_threads.lookup assistant_id
  | none => st.active_threads.lookup assistant_id

/-- Python whitespace characters recognized by `str.strip()` (the ASCII
ones; the message strings of this system are ASCII). -/
def pyWhitespace (c : Char) : Bool :=
  c = ' ' || c = '\t' || c = '\n' || c = '\r' || c = '\x0b' || c = '\x0c'

/-- Truthiness test `not message.strip()`: true exactly when every
character is whitespace (in particular for the empty string). -/
def pyStripIsEmpty (s : String) : Bool :=
  s.data.all pyWhitespace

/-- Result of `add_message_to_thread`: the returned message id or raised
exception, the registry state afterwards, and how many network calls
(`messages.create`) were made. -/
structure AddMsgResult where
  result : Except PyError String
  state : MgrState
  network_calls : Nat

/-- `RunThreadManager.add_message_to_thread`: reject empty or
whitespace-only text with `ValueError` before any network call; otherwise
call the remote `messages.create` (embedded as `api_create`), record the
returned message id in the per-thread tracking set (duplicates are only
logged), and wrap a remote failure in `RuntimeError`. -/
def add_message_to_thread (api_create : Except Unit String) (st : MgrState)
    (thread_id message : String) (_user_id : Option String) : AddMsgResult :=
  if pyStripIsEmpty message then
    { result := Except.error (PyError.valueError "Message cannot be empty"),
      state := st, network_calls := 0 }
  else
    match api_create with
    | Except.ok message_id =>
        let seen := (st.thread_message_tracking.lookup thread_id).getD []
        let tracking :=
          if message_id ∈ seen then
            dictInsert st.thread_message_tracking thread_id seen
          else
            dictInsert st.thread_message_tracking thread_id (seen ++ [message_id])
        { result := Except.ok message_id,
          state := { st with thread_message_tracking := tracking },
          network_calls := 1 }
    | Except.error _ =>
        { result := Except.error (PyError.runtimeError
            ("Error adding message to thread " ++ thread_id)),
          state := st, network_calls := 1 }

/-- The handler methods of `EventHandler` that the dispatch table of
`flexiai/core/handlers/event_dispatcher.py` can route to, plus the
fallback `_handle_unhandled_event`. -/
inductive HandlerName where
  | threadCreated | runCreated | runQueued | runInProgress | runRequiresAction
  | runCompleted | runIncomplete | runFailed | runCancelling | runCancelled
  | runExpired | runStepCreated | runStepInProgress | runStepDelta
  | runStepCompleted | runStepFailed | runStepCancelled | runStepExpired
  | messageCreated | messageInProgress | messageDelta | messageCompleted
  | messageIncomplete | deltaHandler | errorEvent | doneEvent | unhandled
deriving DecidableEq

/-- The static `event_map` built in `EventDispatcher.__init__`: wire
event-type string to bound handler method. -/
def event_map : List (String × HandlerName) :=
  [("thread.created", HandlerName.threadCreated),
   ("thread.run.created", HandlerName.runCreated),
   ("thread.run.queued", HandlerName.runQueued),
   ("thread.run.in_progress", HandlerName.runInProgress),
   ("thread.run.requires_action", HandlerName.runRequiresAction),
   ("thread.run.completed", HandlerName.runCompleted),
   ("thread.run.incomplete", HandlerName.runIncomplete),
   ("thread.run.failed", HandlerName.runFailed),
   ("thread.run.cancelling", HandlerName.runCancelling),
   ("thread.run.cancelled", HandlerName.runCancelled),
   ("thread.run.expired", HandlerName.runExpired),
   ("thread.run.step.created", HandlerName.runStepCreated),
   ("thread.run.step.in_progress", HandlerName.runStepInProgress),
   ("thread.run.step.delta", HandlerName.runStepDelta),
   ("thread.run.step.completed", HandlerName.runStepCompleted),
   ("thread.run.step.failed", HandlerName.runStepFailed),
   ("thread.run.step.cancelled", HandlerName.runStepCancelled),
   ("thread.run.step.expired", HandlerName.runStepExpired),
   ("thread.message.created", HandlerName.messageCreated),
   ("thread.message.in_progress", HandlerName.messageInProgress),
   ("thread.message.delta", HandlerName.messageDelta),
   ("thread.message.completed", HandlerName.messageCompleted),
   ("thread.message.incomplete", HandlerName.messageIncomplete),
   ("tool_call_delta", HandlerName.deltaHandler),
   ("message_delta", HandlerName.deltaHandler),
   ("error", HandlerName.errorEvent),
   ("done", HandlerName.doneEvent)]

/-- The table lookup `self.event_map.get(event_type)` (an event type of
`None` is absent from the string-keyed table). -/
def handlerFor (event_type : Option String) : Option HandlerName :=
  match event_type with
  | some t => event_map.lookup t
  | none => none

/-- `EventDispatcher.dispatch`, observed as the sequence of handler
methods it invokes for one event: the mapped handler when the type is in
the table, otherwise the fallback `_handle_unhandled_event`.  The
function is total: dispatch itself never raises on an unknown type. -/
def dispatch (event_type : Option String) : List HandlerName :=
  match handlerFor event_type with
  | some h => [h]
  | none => [HandlerName.unhandled]

/-- A wire event as consumed by `EventHandler.start_run`:
`getattr(event, "thread_id", ...)` and `getattr(event, "event", None)`
are embedded as optional fields. -/
structure StreamEvent where
  thread_id : Option String
  event : Option String
deriving DecidableEq

/-- `EventHandler._validate_thread`: the event thread id (defaulting to
the expected one when absent) must equal the expected thread id, and
`track_assistant_in_thread(assistant_id, current_user_id)` must still
map to that same thread id; otherwise the event is to be dropped. -/
def validate_thread (st : MgrState) (current_user_id : Option String)
    (event_thread_id : Option String) (expected_thread_id assistant_id : String) :
    Bool :=
  let etid := event_thread_id.getD expected_thread_id
  if etid = expected_thread_id then
    match track_assistant_in_thread st assistant_id current_user_id with
    | none => false
    | some info => decide (info.thread_id = etid)
  else false

/-- The event-consumption loop of `EventHandler.start_run`, observed as
the subsequence of stream events that reach
`self.event_dispatcher.dispatch` (events failing `_validate_thread` are
skipped with only a log entry). -/
def start_run_dispatched (st : MgrState) (current_user_id : Option String)
    (assistant_id thread_id : String) (events : List StreamEvent) :
    List StreamEvent :=
  events.filter (fun ev =>
    validate_thread st current_user_id (some (ev.thread_id.getD thread_id))
      thread_id assistant_id)

/-- The handler invocations performed by one `start_run` consumption
loop: for each validated event, the handler method the dispatch table
routes it to, paired with the event. -/
def start_run_handler_invocations (st : MgrState) (current_user_id : Option String)
    (assistant_id thread_id : String) (events : List StreamEvent) :
    List (HandlerName × StreamEvent) :=
  (start_run_dispatched st current_user_id assistant_id thread_id events).map
    (fun ev => ((handlerFor ev.event).getD HandlerName.unhandled, ev))

/-- An `event_data` payload dict as passed to `finalize_message`: the
`"content"` key (an ordered list of text pieces, absent until set) is
modelled explicitly; the remaining keys are opaque. -/
structure EventData where
  content : Option (List String)
  rest : List (String × JsonVal)

/-- `event_data.setdefault("content", []).append(combined)`: create the
content list if absent, then append the combined string. -/
def setdefaultAppend (d : EventData) (combined : String) : EventData :=
  { d with content := some ((d.content.getD []) ++ [combined]) }

/-- State of `RollingEventBuffer` from
`flexiai/core/events/rolling_event_buffer.py`: the partial-chunk dict and
the insertion-ordered dict of finalized messages. -/
structure RollingEventBuffer where
  max_size : Nat
  partial_chunks : List (String × List String)
  final_messages : List (String × EventData)

/-- A freshly constructed buffer. -/
def RollingEventBuffer.empty (max_size : Nat) : RollingEventBuffer :=
  { max_size := max_size, partial_chunks := [], final_messages := [] }

/-- `RollingEventBuffer.add_partial_chunk`: skip when the message id is
falsy, otherwise `partial_chunks.setdefault(message_id, []).append(chunk)`. -/
def add_partial_chunk (b : RollingEventBuffer) (message_id chunk_text : String) :
    RollingEventBuffer :=
  if message_id = "" then b
  else
    let chunks := ((b.partial_chunks.lookup message_id).getD []) ++ [chunk_text]
    { b with partial_chunks := dictInsert b.partial_chunks message_id chunks }

/-- `RollingEventBuffer._enforce_capacity`: `while len(final_messages) >
max_size: popitem(last=False)` — drop the oldest (front) entries until
the capacity bound holds. -/
def enforce_capacity (max_size : Nat) : List (String × EventData) → List (String × EventData)
  | [] => []
  | x :: xs =>
      if xs.length + 1 > max_size then enforce_capacity max_size xs
      else x :: xs

/-- `RollingEventBuffer.finalize_message`: skip when the message id is
falsy; otherwise pop the partial chunks, join them in arrival order,
append the combined string to the content of `event_data`, store the
event under the message id (an `OrderedDict` assignment keeps an existing
position), and enforce the capacity bound. -/
def finalize_message (b : RollingEventBuffer) (message_id : String)
    (event_data : EventData) : RollingEventBuffer :=
  if message_id = "" then b
  else
    { b with
      partial_chunks := dictRemove b.partial_chunks message_id,
      final_messages := enforce_capacity b.max_size
        (dictInsert b.final_messages message_id
          (setdefaultAppend event_data
            (String.join ((b.partial_chunks.lookup message_id).getD [])))) }

/-- The scan loop of `get_replay_after`: once `found` flips (it starts
true exactly when the requested id is empty), every later entry is
collected. -/
def replayScan (last_message_id : String) (found : Bool) :
    List (String × EventData) → List EventData
  | [] => []
  | (mid, data) :: rest =>
      if found then data :: replayScan last_message_id true rest
      else if mid = last_message_id then replayScan last_message_id true rest
      else replayScan last_message_id false rest

/-- `RollingEventBuffer.get_replay_after`: linear scan of the finalized
messages in insertion order. -/
def get_replay_after (b : RollingEventBuffer) (last_message_id : String) :
    List EventData :=
  replayScan last_message_id (last_message_id = "") b.final_messages

/-- Repeated finalization of a list of message ids with a common payload
(the shape of the eviction scenario: `max_size + 1` distinct finalized
messages). -/
def finalizeAll (b : RollingEventBuffer) (event_data : EventData) :
    List String → RollingEventBuffer
  | [] => b
  | id :: rest => finalizeAll (finalize_message b id event_data) event_data rest

/-! ### Association-list helper lemmas -/

theorem lookup_map_update {α : Type} (k : String) (v : α) :
    ∀ l : List (String × α),
      (l.map (fun p => if p.1 = k then (k, v) else p)).lookup k =
        if (l.lookup k).isSome then some v else none := by
  intro l
  induction l with
  | nil => simp
  | cons p rest ih =>
      obtain ⟨k1, v1⟩ := p
      by_cases hp : k1 = k
      · subst hp
        rw [List.map_cons, if_pos rfl]
        simp
      · rw [List.map_cons, if_neg hp]
        simp only [List.lookup_cons, beq_false_of_ne (Ne.symm hp), ih]

theorem lookup_append_single {α : Type} (k : String) (v : α) :
    ∀ l : List (String × α), l.lookup k = none →
      (l ++ [(k, v)]).lookup k = some v := by
  intro l
  induction l with
  | nil => simp
  | cons p rest ih =>
      intro h
      obtain ⟨k1, v1⟩ := p
      by_cases hp : k1 = k
      · subst hp
        simp at h
      · rw [List.cons_append]
        simp only [List.lookup_cons, beq_false_of_ne (Ne.symm hp)] at h ⊢
        exact ih h

theorem lookup_dictInsert_self {α : Type} (l : List (String × α)) (k : String) (v : α) :
    (dictInsert l k v).lookup k = some v := by
  unfold dictInsert
  by_cases h : (l.lookup k).isSome
  · simp [h, lookup_map_update]
  · have hn : l.lookup k = none := by
      cases hl : l.lookup k with
      | none => rfl
      | some w => simp [hl] at h
    simp [h, lookup_append_single k v l hn]

theorem dictInsert_of_lookup_none {α : Type} (l : List (String × α)) (k : String) (v : α)
    (h : l.lookup k = none) : dictInsert l k v = l ++ [(k, v)] := by
  unfold dictInsert
  simp [h]

theorem dictInsert_length_of_lookup_isSome {α : Type} (l : List (String × α))
    (k : String) (v : α) (h : (l.lookup k).isSome) :
    (dictInsert l k v).length = l.length := by
  unfold dictInsert
  simp [h]

theorem lookup_dictRemove_self {α : Type} (k : String) :
    ∀ l : List (String × α), (dictRemove l k).lookup k = none := by
  intro l
  induction l with
  | nil => simp [dictRemove]
  | cons p rest ih =>
      obtain ⟨k1, v1⟩ := p
      unfold dictRemove at ih ⊢
      rw [List.filter_cons]
      by_cases hp : k1 = k
      · simpa [hp] using ih
      · simpa [hp, List.lookup_cons, beq_false_of_ne (Ne.symm hp)] using ih

theorem lookup_eq_none_iff_not_mem_map_fst {α : Type} (k : String) :
    ∀ l : List (String × α), l.lookup k = none ↔ k ∉ l.map Prod.fst := by
  intro l
  induction l with
  | nil => simp
  | cons p rest ih =>
      obtain ⟨k1, v1⟩ := p
      by_cases hp : k1 = k
      · subst hp
        simp
      · simp only [List.lookup_cons, beq_false_of_ne (Ne.symm hp), List.map_cons,
          List.mem_cons, ih]
        constructor
        · intro h hc
          rcases hc with hc | hc
          · exact hp hc.symm
          · exact h hc
        · intro h hc
          exact h (Or.inr hc)

theorem map_fst_dictInsert_of_lookup_none {α : Type} (l : List (String × α))
    (k : String) (v : α) (h : l.lookup k = none) :
    (dictInsert l k v).map Prod.fst = l.map Prod.fst ++ [k] := by
  simp [dictInsert_of_lookup_none l k v h]

/-! ### Capacity-enforcement helper lemmas -/

theorem enforce_capacity_of_le (max_size : Nat) (l : List (String × EventData))
    (h : l.length ≤ max_size) : enforce_capacity max_size l = l := by
  cases l with
  | nil => rfl
  | cons x xs =>
      unfold enforce_capacity
      have hc : ¬ xs.length + 1 > max_size := by
        simp at h
        omega
      simp [hc]

theorem enforce_capacity_eq_drop (max_size : Nat) :
    ∀ l : List (String × EventData), l.length ≤ max_size + 1 →
      enforce_capacity max_size l = l.drop (l.length - max_size) := by
  intro l
  induction l with
  | nil => intro _; simp [enforce_capacity]
  | cons x xs ih =>
      intro h
      unfold enforce_capacity
      by_cases hc : xs.length + 1 > max_size
      · have hxs : xs.length ≤ max_size := by
          simp at h
          omega
        have hd : (x :: xs).length - max_size = 1 := by
          simp
          omega
        rw [hd]
        simp [hc, enforce_capacity_of_le max_size xs hxs]
      · have hd : (x :: xs).length - max_size = 0 := by
          simp
          omega
        rw [hd]
        simp [hc]

theorem enforce_capacity_length_le (max_size : Nat) :
    ∀ l : List (String × EventData), (enforce_capacity max_size l).length ≤ max_size := by
  intro l
  induction l with
  | nil => simp [enforce_capacity]
  | cons x xs ih =>
      unfold enforce_capacity
      by_cases hc : xs.length + 1 > max_size
      · simpa [hc] using ih
      · simp [hc]
        omega

/-! ### Claim theorems -/

/-- Claim C8: for every event-type string absent from the dispatch table,
`dispatch` does not raise (it is a total function) and invokes exactly the
fallback unhandled-event handler, so no other handler is invoked for that
event. -/
theorem C8_unknown_type_falls_back (t : String)
    (h : event_map.lookup t = none) :
    dispatch (some t) = [HandlerName.unhandled] := by
  simp [dispatch, handlerFor, h]

/-- Witness for C8 at a concrete unknown wire type. -/
theorem C8_unknown_type_falls_back_witness :
    event_map.lookup "thread.run.step.exotic" = none ∧
    dispatch (some "thread.run.step.exotic") = [HandlerName.unhandled] :=
  ⟨by decide, C8_unknown_type_falls_back "thread.run.step.exotic" (by decide)⟩

/-- Claim C7: an empty or whitespace-only message is rejected with the
validation error (`ValueError` in the source, the `ValidationError` class
of the error taxonomy) before any network call, and the registry state —
including the per-thread message tracking — is unchanged. -/
theorem C7_empty_message_rejected (api_create : Except Unit String)
    (st : MgrState) (thread_id message : String) (user_id : Option String)
    (h : pyStripIsEmpty message = true) :
    add_message_to_thread api_create st thread_id message user_id =
      { result := Except.error (PyError.valueError "Message cannot be empty"),
        state := st, network_calls := 0 } := by
  simp [add_message_to_thread, h]

/-- Witness for C7 at a concrete whitespace-only message. -/
theorem C7_empty_message_rejected_witness :
    pyStripIsEmpty " \t " = true ∧
    add_message_to_thread (Except.ok "msg_1") ⟨[], []⟩ "thread_1" " \t " (some "u1") =
      { result := Except.error (PyError.valueError "Message cannot be empty"),
        state := ⟨[], []⟩, network_calls := 0 } :=
  ⟨by decide,
   C7_empty_message_rejected (Except.ok "msg_1") ⟨[], []⟩ "thread_1" " \t "
     (some "u1") (by decide)⟩

/-- Claim C10: when the remote create-thread call raises inside
`get_or_create_thread` (every cached record for the key, if any, having
already failed validation), the call raises `RuntimeError` and the
resulting registry holds no record for the requested key. -/
theorem C10_create_failure_leaves_no_record (validate : String → Bool)
    (st : MgrState) (assistant_id : String) (user_id : Option String)
    (h : ∀ info, st.active_threads.lookup (threadKey assistant_id user_id) = some info →
      validate info.thread_id = false) :
    (get_or_create_thread validate (Except.error ()) st assistant_id user_id).result =
      Except.error (PyError.runtimeError
        ("Unable to create thread for assistant " ++ assistant_id)) ∧
    ((get_or_create_thread validate (Except.error ()) st assistant_id
        user_id).state).active_threads.lookup (threadKey assistant_id user_id) = none := by
  unfold get_or_create_thread
  cases hl : st.active_threads.lookup (threadKey assistant_id user_id) with
  | none => simp [hl, gocCreate]
  | some info =>
      have hv := h info hl
      simp [hl, hv, gocCreate, lookup_dictRemove_self]

/-- Witness for C10 at a concrete stale registry entry. -/
theorem C10_create_failure_leaves_no_record_witness :
    (get_or_create_thread (fun _ => false) (Except.error ())
        ⟨[("asst:u1", ⟨"T0", "initialized"⟩)], []⟩ "asst" (some "u1")).result =
      Except.error (PyError.runtimeError ("Unable to create thread for assistant " ++ "asst")) ∧
    ((get_or_create_thread (fun _ => false) (Except.error ())
        ⟨[("asst:u1", ⟨"T0", "initialized"⟩)], []⟩ "asst"
        (some "u1")).state).active_threads.lookup (threadKey "asst" (some "u1")) = none :=
  C10_create_failure_leaves_no_record (fun _ => false)
    ⟨[("asst:u1", ⟨"T0", "initialized"⟩)], []⟩ "asst" (some "u1")
    (fun _ _ => rfl)

/-- After a successful `get_or_create_thread`, the registry maps the
requested key to the returned thread id. -/
theorem goc_ok_lookup (validate : String → Bool) (create : Except Unit String)
    (st : MgrState) (assistant_id : String) (user_id : Option String) (tid : String)
    (hok : (get_or_create_thread validate create st assistant_id user_id).result =
      Except.ok tid) :
    ∃ status, ((get_or_create_thread validate create st assistant_id
      user_id).state).active_threads.lookup (threadKey assistant_id user_id) =
        some ⟨tid, status⟩ := by
  unfold get_or_create_thread at hok ⊢
  cases hl : st.active_threads.lookup (threadKey assistant_id user_id) with
  | none =>
      rw [hl] at hok
      cases hc : create with
      | ok tid2 =>
          rw [hc] at hok
          simp [gocCreate] at hok
          subst hok
          exact ⟨"initialized", by simp [gocCreate, lookup_dictInsert_self]⟩
      | error e =>
          rw [hc] at hok
          simp [gocCreate] at hok
  | some info =>
      rw [hl] at hok
      by_cases hv : validate info.thread_id
      · simp [hv] at hok ⊢
        refine ⟨info.status, ?_⟩
        rw [hl, ← hok]
      · cases hc : create with
        | ok tid2 =>
            rw [hc] at hok
            simp [hv, gocCreate] at hok
            subst hok
            exact ⟨"initialized", by simp [hv, gocCreate, lookup_dictInsert_self]⟩
        | error e =>
            rw [hc] at hok
            simp [hv, gocCreate] at hok

/-- Claim C3: two sequential `get_or_create_thread` calls for the same
assistant and user with no intervening invalidation (the cached id still
validates, and no other registry mutation occurs between the calls)
return the same thread id; the second call performs no remote creation
and leaves the registry unchanged. -/
theorem C3_get_or_create_thread_idempotent (validate : String → Bool)
    (create create2 : Except Unit String) (st : MgrState)
    (assistant_id : String) (user_id : Option String) (tid : String)
    (hok : (get_or_create_thread validate create st assistant_id user_id).result =
      Except.ok tid)
    (hvalid : validate tid = true) :
    (get_or_create_thread validate create2
      (get_or_create_thread validate create st assistant_id user_id).state
      assistant_id user_id).result = Except.ok tid ∧
    (get_or_create_thread validate create2
      (get_or_create_thread validate create st assistant_id user_id).state
      assistant_id user_id).created_remote = false ∧
    (get_or_create_thread validate create2
      (get_or_create_thread validate create st assistant_id user_id).state
      assistant_id user_id).state =
      (get_or_create_thread validate create st assistant_id user_id).state := by
  obtain ⟨status, hl⟩ := goc_ok_lookup validate create st assistant_id user_id tid hok
  set st1 := (get_or_create_thread validate create st assistant_id user_id).state with hst1
  refine ⟨?_, ?_, ?_⟩
  all_goals unfold get_or_create_thread
  all_goals rw [hl]
  all_goals simp [hvalid]

/-- Witness for C3 at a concrete first creation. -/
theorem C3_get_or_create_thread_idempotent_witness :
    (get_or_create_thread (fun _ => true) (Except.ok "T1")
        ⟨[], []⟩ "asst" (some "u1")).result = Except.ok "T1" ∧
    (fun _ => true : String → Bool) "T1" = true ∧
    ((get_or_create_thread (fun _ => true) (Except.error ())
        (get_or_create_thread (fun _ => true) (Except.ok "T1")
          ⟨[], []⟩ "asst" (some "u1")).state "asst" (some "u1")).result = Except.ok "T1" ∧
      (get_or_create_thread (fun _ => true) (Except.error ())
        (get_or_create_thread (fun _ => true) (Except.ok "T1")
          ⟨[], []⟩ "asst" (some "u1")).state "asst" (some "u1")).created_remote = false ∧
      (get_or_create_thread (fun _ => true) (Except.error ())
        (get_or_create_thread (fun _ => true) (Except.ok "T1")
          ⟨[], []⟩ "asst" (some "u1")).state "asst" (some "u1")).state =
        (get_or_create_thread (fun _ => true) (Except.ok "T1")
          ⟨[], []⟩ "asst" (some "u1")).state) :=
  ⟨rfl, rfl,
   C3_get_or_create_thread_idempotent (fun _ => true) (Except.ok "T1")
     (Except.error ()) ⟨[], []⟩ "asst" (some "u1") "T1" rfl rfl⟩

/-- Claim C1: an event whose (resolved) thread id differs from the
expected thread id of the run, or for which the registry no longer maps
the assistant and current user to that thread id, never reaches the
dispatcher during the `start_run` consumption loop: it is absent from the
dispatched events, and no handler invocation carries it, so no handler
side effect can occur for it.  Dropping is silent: the filter and the
invocation list are total functions, nothing is raised. -/
theorem C1_invalid_event_not_dispatched (st : MgrState)
    (current_user_id : Option String) (assistant_id thread_id : String)
    (events : List StreamEvent) (ev : StreamEvent)
    (hbad : ev.thread_id.getD thread_id ≠ thread_id ∨
      ∀ info, track_assistant_in_thread st assistant_id current_user_id = some info →
        info.thread_id ≠ ev.thread_id.getD thread_id) :
    ev ∉ start_run_dispatched st current_user_id assistant_id thread_id events ∧
    ∀ p ∈ start_run_handler_invocations st current_user_id assistant_id thread_id events,
      p.2 ≠ ev := by
  have hval : validate_thread st current_user_id (some (ev.thread_id.getD thread_id))
      thread_id assistant_id = false := by
    unfold validate_thread
    rcases hbad with hb | hb
    · simp [hb]
    · by_cases he : ev.thread_id.getD thread_id = thread_id
      · simp only [Option.getD_some, he, if_true]
        cases ht : track_assistant_in_thread st assistant_id current_user_id with
        | none => rfl
        | some info =>
            have := hb info ht
            rw [he] at this
            simp [this]
      · simp [he]
  have hnot : ev ∉ start_run_dispatched st current_user_id assistant_id thread_id events := by
    intro hmem
    rw [start_run_dispatched, List.mem_filter] at hmem
    rw [hval] at hmem
    exact Bool.false_ne_true hmem.2
  refine ⟨hnot, ?_⟩
  intro p hp hpe
  rw [start_run_handler_invocations, List.mem_map] at hp
  obtain ⟨ev2, hev2, hfe⟩ := hp
  apply hnot
  have : ev2 = ev := by
    rw [← hfe] at hpe
    exact hpe
  rw [← this]
  exact hev2

/-- Witness for C1 at a concrete mismatching event. -/
theorem C1_invalid_event_not_dispatched_witness :
    (StreamEvent.mk (some "T2") (some "thread.message.delta")).thread_id.getD "T1" ≠ "T1" ∧
    ((StreamEvent.mk (some "T2") (some "thread.message.delta")) ∉
      start_run_dispatched ⟨[("asst:u1", ⟨"T1", "initialized"⟩)], []⟩ (some "u1")
        "asst" "T1" [StreamEvent.mk (some "T2") (some "thread.message.delta")] ∧
    ∀ p ∈ start_run_handler_invocations ⟨[("asst:u1", ⟨"T1", "initialized"⟩)], []⟩
        (some "u1") "asst" "T1" [StreamEvent.mk (some "T2") (some "thread.message.delta")],
      p.2 ≠ StreamEvent.mk (some "T2") (some "thread.message.delta")) :=
  ⟨by decide,
   C1_invalid_event_not_dispatched ⟨[("asst:u1", ⟨"T1", "initialized"⟩)], []⟩
     (some "u1") "asst" "T1" [StreamEvent.mk (some "T2") (some "thread.message.delta")]
     (StreamEvent.mk (some "T2") (some "thread.message.delta")) (Or.inl (by decide))⟩

/-- The requires-action loop builds exactly the per-call outputs, in
iteration order. -/
theorem requiresActionOutputs_eq_map (parse : String → Option KwArgs)
    (actions : List (String × (KwArgs → Except String JsonVal)))
    (enc : String → List Nat) (dec : List Nat → String) :
    ∀ tcs : List ToolCall, requiresActionOutputs parse actions enc dec tcs =
      tcs.map (processToolCall parse actions enc dec) := by
  intro tcs
  induction tcs with
  | nil => rfl
  | cons tc rest ih => simp [requiresActionOutputs, ih]

/-- Claim C2: for a non-empty tool-call batch, `_handle_requires_action`
builds exactly one output per tool call, in the order the API returned
them; each output is a function of its own call alone (`processToolCall`
is total, so an execution failure of one call — an error result — cannot
prevent the remaining calls from being processed); malformed JSON
arguments degrade to empty arguments rather than aborting the batch; and
the full output list is resubmitted in a single
`submit_tool_outputs_stream` call. -/
theorem C2_requires_action_batch (parse : String → Option KwArgs)
    (actions : List (String × (KwArgs → Except String JsonVal)))
    (enc : String → List Nat) (dec : List Nat → String)
    (tcs : List ToolCall) (_hne : tcs ≠ []) :
    (handle_requires_action parse actions enc dec tcs).outputs =
      tcs.map (processToolCall parse actions enc dec) ∧
    (handle_requires_action parse actions enc dec tcs).outputs.length = tcs.length ∧
    (handle_requires_action parse actions enc dec tcs).submissions =
      [(handle_requires_action parse actions enc dec tcs).outputs] ∧
    ∀ tc ∈ tcs, parse tc.args = none →
      processToolCall parse actions enc dec tc =
        (match ToolCallExecutor.execute actions tc.fname [] with
         | Except.ok r => prepare_tool_output enc dec tc r true
         | Except.error e => prepare_tool_output enc dec tc (JsonVal.str e) false) := by
  refine ⟨?_, ?_, ?_, ?_⟩
  · simp [handle_requires_action, requiresActionOutputs_eq_map]
  · simp [handle_requires_action, requiresActionOutputs_eq_map]
  · simp [handle_requires_action]
  · intro tc _ hparse
    unfold processToolCall
    rw [hparse]

/-- Witness for C2 at a concrete two-call batch: the first call succeeds,
the second has malformed JSON arguments and an unknown tool name. -/
theorem C2_requires_action_batch_witness :
    ([ToolCall.mk "call_1" "echo" "\x7b\x7d",
      ToolCall.mk "call_2" "missing" "not json"] : List ToolCall) ≠ [] ∧
    ((handle_requires_action
        (fun s => if s = "\x7b\x7d" then some [] else none)
        [("echo", fun _ => Except.ok (JsonVal.str "ok"))]
        (fun s => s.data.map Char.toNat) (fun l => String.mk (l.map Char.ofNat))
        [ToolCall.mk "call_1" "echo" "\x7b\x7d",
         ToolCall.mk "call_2" "missing" "not json"]).outputs =
      [ToolCall.mk "call_1" "echo" "\x7b\x7d",
       ToolCall.mk "call_2" "missing" "not json"].map
        (processToolCall (fun s => if s = "\x7b\x7d" then some [] else none)
          [("echo", fun _ => Except.ok (JsonVal.str "ok"))]
          (fun s => s.data.map Char.toNat) (fun l => String.mk (l.map Char.ofNat))) ∧
    (handle_requires_action
        (fun s => if s = "\x7b\x7d" then some [] else none)
        [("echo", fun _ => Except.ok (JsonVal.str "ok"))]
        (fun s => s.data.map Char.toNat) (fun l => String.mk (l.map Char.ofNat))
        [ToolCall.mk "call_1" "echo" "\x7b\x7d",
         ToolCall.mk "call_2" "missing" "not json"]).outputs.length = 2 ∧
    (handle_requires_action
        (fun s => if s = "\x7b\x7d" then some [] else none)
        [("echo", fun _ => Except.ok (JsonVal.str "ok"))]
        (fun s => s.data.map Char.toNat) (fun l => String.mk (l.map Char.ofNat))
        [ToolCall.mk "call_1" "echo" "\x7b\x7d",
         ToolCall.mk "call_2" "missing" "not json"]).submissions =
      [(handle_requires_action
          (fun s => if s = "\x7b\x7d" then some [] else none)
          [("echo", fun _ => Except.ok (JsonVal.str "ok"))]
          (fun s => s.data.map Char.toNat) (fun l => String.mk (l.map Char.ofNat))
          [ToolCall.mk "call_1" "echo" "\x7b\x7d",
           ToolCall.mk "call_2" "missing" "not json"]).outputs] ∧
    ∀ tc ∈ ([ToolCall.mk "call_1" "echo" "\x7b\x7d",
              ToolCall.mk "call_2" "missing" "not json"] : List ToolCall),
      (fun s => if s = "\x7b\x7d" then some ([] : KwArgs) else none) tc.args = none →
      processToolCall (fun s => if s = "\x7b\x7d" then some [] else none)
          [("echo", fun _ => Except.ok (JsonVal.str "ok"))]
          (fun s => s.data.map Char.toNat) (fun l => String.mk (l.map Char.ofNat)) tc =
        (match ToolCallExecutor.execute
            [("echo", fun _ => Except.ok (JsonVal.str "ok"))] tc.fname [] with
         | Except.ok r => prepare_tool_output (fun s => s.data.map Char.toNat)
             (fun l => String.mk (l.map Char.ofNat)) tc r true
         | Except.error e => prepare_tool_output (fun s => s.data.map Char.toNat)
             (fun l => String.mk (l.map Char.ofNat)) tc (JsonVal.str e) false)) :=
  ⟨by decide,
   C2_requires_action_batch (fun s => if s = "\x7b\x7d" then some [] else none)
     [("echo", fun _ => Except.ok (JsonVal.str "ok"))]
     (fun s => s.data.map Char.toNat) (fun l => String.mk (l.map Char.ofNat))
     [ToolCall.mk "call_1" "echo" "\x7b\x7d",
      ToolCall.mk "call_2" "missing" "not json"] (by decide)⟩

/-- Behaviour of `return_context` under a tokenizer whose decode inverts
encode and distributes over concatenation, and whose re-encoding of a
decoded token list never yields more tokens (the properties of a BPE
tokenizer such as tiktoken): the result is a suffix of the input, its
token count fits the budget, and a fitting input is returned unchanged. -/
theorem return_context_spec (enc : String → List Nat) (dec : List Nat → String)
    (hround : ∀ s, dec (enc s) = s)
    (happend : ∀ l1 l2 : List Nat, dec (l1 ++ l2) = dec l1 ++ dec l2)
    (hreenc : ∀ l : List Nat, (enc (dec l)).length ≤ l.length)
    (text : String) (max_tokens : Nat) (hmax : 0 < max_tokens) :
    (∃ pre, pre ++ return_context enc dec text max_tokens = text) ∧
    (enc (return_context enc dec text max_tokens)).length ≤ max_tokens ∧
    ((enc text).length ≤ max_tokens → return_context enc dec text max_tokens = text) := by
  unfold return_context
  by_cases hle : (enc text).length ≤ max_tokens
  · rw [if_pos hle]
    exact ⟨⟨"", by simp⟩, hle, fun _ => rfl⟩
  · have hne : ¬ max_tokens = 0 := by omega
    rw [if_neg hle, if_neg hne]
    set k := (enc text).length - max_tokens with hk
    have htake : enc text = (enc text).take k ++ (enc text).drop k := by
      simp
    refine ⟨⟨dec ((enc text).take k), ?_⟩, ?_, fun h => absurd h hle⟩
    · rw [← happend, ← htake, hround]
    · have h1 := hreenc ((enc text).drop k)
      have h2 : ((enc text).drop k).length = max_tokens := by
        simp [hk]
        omega
      omega

/-- Claim C6: `prepare_tool_output` returns the tool call id together
with the JSON serialization of the `{status, message, result}` wrapper,
truncated so that its token count does not exceed the configured maximum
of 124000; truncation removes from the front and keeps the tail, so the
output is always a suffix of the full JSON string (and equals it when no
truncation is needed). -/
theorem C6_prepare_tool_output_truncates (enc : String → List Nat)
    (dec : List Nat → String)
    (hround : ∀ s, dec (enc s) = s)
    (happend : ∀ l1 l2 : List Nat, dec (l1 ++ l2) = dec l1 ++ dec l2)
    (hreenc : ∀ l : List Nat, (enc (dec l)).length ≤ l.length)
    (tc : ToolCall) (result : JsonVal) (success : Bool) :
    (prepare_tool_output enc dec tc result success).tool_call_id = tc.id ∧
    (∃ pre, pre ++ (prepare_tool_output enc dec tc result success).output =
      dumps (payloadOf result success)) ∧
    (enc (prepare_tool_output enc dec tc result success).output).length ≤ 124000 ∧
    ((enc (dumps (payloadOf result success))).length ≤ 124000 →
      (prepare_tool_output enc dec tc result success).output =
        dumps (payloadOf result success)) := by
  have h := return_context_spec enc dec hround happend hreenc
    (dumps (payloadOf result success)) 124000 (by omega)
  exact ⟨rfl, h.1, h.2.1, h.2.2⟩

/-- A concrete tokenizer (one token per character) satisfying the
tokenizer laws, used to witness the truncation theorem. -/
def charEnc (s : String) : List Nat :=
  s.data.map Char.toNat

/-- Decoder matching `charEnc`. -/
def charDec (l : List Nat) : String :=
  String.mk (l.map Char.ofNat)

theorem charDec_charEnc (s : String) : charDec (charEnc s) = s := by
  unfold charDec charEnc
  rw [List.map_map]
  have hcomp : (Char.ofNat ∘ Char.toNat) = id := by
    funext c
    simp
  rw [hcomp, List.map_id]

theorem charDec_append (l1 l2 : List Nat) :
    charDec (l1 ++ l2) = charDec l1 ++ charDec l2 := by
  unfold charDec
  rw [List.map_append]
  rfl

theorem charEnc_charDec_length (l : List Nat) :
    (charEnc (charDec l)).length ≤ l.length := by
  simp [charEnc, charDec]

/-- Witness for C6 at a concrete tool call and result, using the
character tokenizer. -/
theorem C6_prepare_tool_output_truncates_witness :
    (prepare_tool_output charEnc charDec (ToolCall.mk "call_1" "echo" "\x7b\x7d")
      (JsonVal.str "ok") true).tool_call_id = "call_1" ∧
    (∃ pre, pre ++ (prepare_tool_output charEnc charDec
        (ToolCall.mk "call_1" "echo" "\x7b\x7d") (JsonVal.str "ok") true).output =
      dumps (payloadOf (JsonVal.str "ok") true)) ∧
    (charEnc (prepare_tool_output charEnc charDec
        (ToolCall.mk "call_1" "echo" "\x7b\x7d")
        (JsonVal.str "ok") true).output).length ≤ 124000 ∧
    ((charEnc (dumps (payloadOf (JsonVal.str "ok") true))).length ≤ 124000 →
      (prepare_tool_output charEnc charDec (ToolCall.mk "call_1" "echo" "\x7b\x7d")
          (JsonVal.str "ok") true).output = dumps (payloadOf (JsonVal.str "ok") true)) :=
  C6_prepare_tool_output_truncates charEnc charDec charDec_charEnc charDec_append
    charEnc_charDec_length (ToolCall.mk "call_1" "echo" "\x7b\x7d")
    (JsonVal.str "ok") true

/-- Once the scan has found its checkpoint, every remaining entry is
collected in order. -/
theorem replayScan_found (last : String) :
    ∀ l : List (String × EventData), replayScan last true l = l.map Prod.snd := by
  intro l
  induction l with
  | nil => rfl
  | cons p rest ih =>
      obtain ⟨mid, data⟩ := p
      simp [replayScan, ih]

/-- Scanning for an id that never occurs collects nothing. -/
theorem replayScan_not_found (last : String) :
    ∀ l : List (String × EventData), l.lookup last = none →
      replayScan last false l = [] := by
  intro l
  induction l with
  | nil => intro _; rfl
  | cons p rest ih =>
      intro h
      obtain ⟨mid, data⟩ := p
      by_cases hm : mid = last
      · subst hm
        simp at h
      · simp only [List.lookup_cons, beq_false_of_ne (Ne.symm hm)] at h
        simp [replayScan, hm, ih h]

/-- Scanning for a present id collects exactly the entries strictly after
its first occurrence. -/
theorem replayScan_present (last : String) :
    ∀ l : List (String × EventData), (l.lookup last).isSome →
      replayScan last false l =
        (l.map Prod.snd).drop (l.findIdx (fun p => p.1 == last) + 1) := by
  intro l
  induction l with
  | nil => intro h; simp at h
  | cons p rest ih =>
      intro h
      obtain ⟨mid, data⟩ := p
      by_cases hm : mid = last
      · subst hm
        simp [replayScan, replayScan_found, List.findIdx_cons]
      · simp only [List.lookup_cons, beq_false_of_ne (Ne.symm hm)] at h
        have hidx : ((mid, data) :: rest).findIdx (fun p => p.1 == last) =
            rest.findIdx (fun p => p.1 == last) + 1 := by
          simp [List.findIdx_cons, beq_false_of_ne hm]
        rw [hidx]
        simp [replayScan, hm, ih h]

/-- Claim C4: `get_replay_after ""` returns all finalized messages in
insertion order; `get_replay_after id` for an id absent from the
finalized message ids returns the empty sequence; and for a present id it
returns exactly the messages finalized strictly after its first
occurrence, in insertion order. -/
theorem C4_get_replay_after_spec (b : RollingEventBuffer) (last : String) :
    get_replay_after b "" = b.final_messages.map Prod.snd ∧
    (last ≠ "" → b.final_messages.lookup last = none →
      get_replay_after b last = []) ∧
    (last ≠ "" → (b.final_messages.lookup last).isSome →
      get_replay_after b last =
        (b.final_messages.map Prod.snd).drop
          (b.final_messages.findIdx (fun p => p.1 == last) + 1)) := by
  refine ⟨?_, ?_, ?_⟩
  · unfold get_replay_after
    rw [show (decide (("" : String) = "")) = true from by decide]
    exact replayScan_found "" b.final_messages
  · intro hne h
    unfold get_replay_after
    rw [decide_eq_false hne]
    exact replayScan_not_found last b.final_messages h
  · intro hne h
    unfold get_replay_after
    rw [decide_eq_false hne]
    exact replayScan_present last b.final_messages h

/-- Witness for C4 on a concrete three-message buffer: replay from the
start, from an unknown id, and from the middle id. -/
theorem C4_get_replay_after_spec_witness :
    (get_replay_after
        ⟨3, [], [("m1", ⟨some ["x"], []⟩), ("m2", ⟨some ["y"], []⟩),
                 ("m3", ⟨some ["z"], []⟩)]⟩ "" =
      [("m1", (⟨some ["x"], []⟩ : EventData)), ("m2", ⟨some ["y"], []⟩),
       ("m3", ⟨some ["z"], []⟩)].map Prod.snd) ∧
    (get_replay_after
        ⟨3, [], [("m1", ⟨some ["x"], []⟩), ("m2", ⟨some ["y"], []⟩),
                 ("m3", ⟨some ["z"], []⟩)]⟩ "zz" = []) ∧
    (get_replay_after
        ⟨3, [], [("m1", ⟨some ["x"], []⟩), ("m2", ⟨some ["y"], []⟩),
                 ("m3", ⟨some ["z"], []⟩)]⟩ "m2" =
      ([("m1", (⟨some ["x"], []⟩ : EventData)), ("m2", ⟨some ["y"], []⟩),
        ("m3", ⟨some ["z"], []⟩)].map Prod.snd).drop
        ([("m1", (⟨some ["x"], []⟩ : EventData)), ("m2", ⟨some ["y"], []⟩),
          ("m3", ⟨some ["z"], []⟩)].findIdx (fun p => p.1 == "m2") + 1)) := by
  obtain ⟨h1, h2, h3⟩ := C4_get_replay_after_spec
    ⟨3, [], [("m1", ⟨some ["x"], []⟩), ("m2", ⟨some ["y"], []⟩),
             ("m3", ⟨some ["z"], []⟩)]⟩ "m2"
  obtain ⟨g1, g2, g3⟩ := C4_get_replay_after_spec
    ⟨3, [], [("m1", ⟨some ["x"], []⟩), ("m2", ⟨some ["y"], []⟩),
             ("m3", ⟨some ["z"], []⟩)]⟩ "zz"
  refine ⟨h1, g2 (by decide) ?_, h3 (by decide) ?_⟩
  · rfl
  · rfl

/-- A key absent from two association lists is absent from their
concatenation. -/
theorem lookup_append_none {α : Type} (k : String) (l1 l2 : List (String × α))
    (h1 : l1.lookup k = none) (h2 : l2.lookup k = none) :
    (l1 ++ l2).lookup k = none := by
  rw [lookup_eq_none_iff_not_mem_map_fst] at h1 h2 ⊢
  rw [List.map_append]
  intro hm
  rcases List.mem_append.mp hm with hm | hm
  · exact h1 hm
  · exact h2 hm

/-- A key absent from an association list is absent from any of its drop
suffixes. -/
theorem lookup_drop_none {α : Type} (k : String) (n : Nat) (l : List (String × α))
    (h : l.lookup k = none) : (l.drop n).lookup k = none := by
  rw [lookup_eq_none_iff_not_mem_map_fst] at h ⊢
  rw [List.map_drop]
  intro hm
  exact h (List.mem_of_mem_drop hm)

/-- Finalizing a fresh non-empty message id appends the annotated event at
the back and then drops the overflow from the front. -/
theorem finalize_fresh (b : RollingEventBuffer) (mid : String) (d : EventData)
    (hmid : mid ≠ "") (hlook : b.final_messages.lookup mid = none)
    (hfin : b.final_messages.length ≤ b.max_size) :
    (finalize_message b mid d).final_messages =
      (b.final_messages ++
        [(mid, setdefaultAppend d (String.join ((b.partial_chunks.lookup mid).getD [])))]).drop
        (b.final_messages.length + 1 - b.max_size) := by
  unfold finalize_message
  rw [if_neg hmid, dictInsert_of_lookup_none _ _ _ hlook]
  rw [enforce_capacity_eq_drop b.max_size _ (by simp; omega)]
  simp

/-- `finalize_message` preserves the capacity bound. -/
theorem finalize_message_max_size (b : RollingEventBuffer) (mid : String)
    (d : EventData) : (finalize_message b mid d).max_size = b.max_size := by
  unfold finalize_message
  by_cases hmid : mid = ""
  · rw [if_pos hmid]
  · rw [if_neg hmid]

/-- Keys and size of the buffer after finalizing a list of distinct,
fresh, non-empty message ids: the combined key sequence with the overflow
dropped from the front (strict FIFO eviction). -/
theorem finalizeAll_keys (d : EventData) :
    ∀ (ids : List String) (b : RollingEventBuffer),
      ids.Nodup → (∀ id ∈ ids, id ≠ "") →
      (∀ id ∈ ids, b.final_messages.lookup id = none) →
      b.final_messages.length ≤ b.max_size →
      (finalizeAll b d ids).final_messages.map Prod.fst =
        (b.final_messages.map Prod.fst ++ ids).drop
          (b.final_messages.length + ids.length - b.max_size) ∧
      (finalizeAll b d ids).max_size = b.max_size ∧
      (finalizeAll b d ids).final_messages.length =
        min (b.final_messages.length + ids.length) b.max_size := by
  intro ids
  induction ids with
  | nil =>
      intro b _ _ _ hfin
      have h0 : b.final_messages.length + ([] : List String).length - b.max_size = 0 := by
        simp
        omega
      refine ⟨?_, rfl, ?_⟩
      · rw [h0]
        simp [finalizeAll]
      · simp [finalizeAll]
        omega
  | cons id rest ih =>
      intro b hnodup hne hfresh hfin
      have hmid : id ≠ "" := hne id (List.mem_cons_self id rest)
      have hlook : b.final_messages.lookup id = none :=
        hfresh id (List.mem_cons_self id rest)
      have hstep := finalize_fresh b id d hmid hlook hfin
      have hmax1 : (finalize_message b id d).max_size = b.max_size :=
        finalize_message_max_size b id d
      have hlen1 : (finalize_message b id d).final_messages.length =
          min (b.final_messages.length + 1) b.max_size := by
        rw [hstep]
        simp
        omega
      have hfresh1 : ∀ id2 ∈ rest,
          (finalize_message b id d).final_messages.lookup id2 = none := by
        intro id2 hid2
        have h1 : b.final_messages.lookup id2 = none :=
          hfresh id2 (List.mem_cons_of_mem id hid2)
        have h2 : id2 ≠ id := by
          intro he
          subst he
          exact (List.nodup_cons.mp hnodup).1 hid2
        rw [hstep]
        apply lookup_drop_none
        apply lookup_append_none _ _ _ h1
        simp [List.lookup_cons, beq_false_of_ne h2]
      have hfinle1 : (finalize_message b id d).final_messages.length ≤
          (finalize_message b id d).max_size := by
        rw [hmax1, hlen1]
        omega
      have hnodup1 : rest.Nodup := (List.nodup_cons.mp hnodup).2
      have hne1 : ∀ id2 ∈ rest, id2 ≠ "" :=
        fun id2 h => hne id2 (List.mem_cons_of_mem id h)
      obtain ⟨ihkeys, ihmax, ihlen⟩ :=
        ih (finalize_message b id d) hnodup1 hne1 hfresh1 hfinle1
      have hall : finalizeAll b d (id :: rest) =
          finalizeAll (finalize_message b id d) d rest := rfl
      have hkeys1 : (finalize_message b id d).final_messages.map Prod.fst =
          (b.final_messages.map Prod.fst ++ [id]).drop
            (b.final_messages.length + 1 - b.max_size) := by
        rw [hstep, List.map_drop, List.map_append]
        simp
      refine ⟨?_, ?_, ?_⟩
      · rw [hall, ihkeys, hkeys1, hmax1, hlen1]
        rw [← List.drop_append_of_le_length (by simp)]
        rw [List.drop_drop]
        rw [List.append_assoc, List.singleton_append]
        have harith :
            b.final_messages.length + 1 - b.max_size +
              (min (b.final_messages.length + 1) b.max_size + rest.length -
                b.max_size) =
            b.final_messages.length + (id :: rest).length - b.max_size := by
          simp
          omega
        rw [harith]
      · rw [hall, ihmax, hmax1]
      · rw [hall, ihlen, hmax1, hlen1]
        simp
        omega

/-- `finalize_message` with a non-empty id removes the partial-chunk
entry. -/
theorem finalize_message_partial_chunks (b : RollingEventBuffer) (mid : String)
    (d : EventData) (hmid : mid ≠ "") :
    (finalize_message b mid d).partial_chunks = dictRemove b.partial_chunks mid := by
  unfold finalize_message
  rw [if_neg hmid]

/-- `finalize_message` re-establishes the capacity bound. -/
theorem finalize_message_length_le (b : RollingEventBuffer) (mid : String)
    (d : EventData) (hfin : b.final_messages.length ≤ b.max_size) :
    (finalize_message b mid d).final_messages.length ≤
      (finalize_message b mid d).max_size := by
  unfold finalize_message
  by_cases hmid : mid = ""
  · rw [if_pos hmid]
    exact hfin
  · rw [if_neg hmid]
    exact enforce_capacity_length_le b.max_size _

/-- After finalizing a non-empty id into a buffer within capacity (the
capacity being positive), the stored event for that id is the given
payload annotated with the joined partial chunks. -/
theorem lookup_finalize_self (b : RollingEventBuffer) (mid : String) (d : EventData)
    (hmid : mid ≠ "") (hfin : b.final_messages.length ≤ b.max_size)
    (hmax : 1 ≤ b.max_size) :
    (finalize_message b mid d).final_messages.lookup mid =
      some (setdefaultAppend d
        (String.join ((b.partial_chunks.lookup mid).getD []))) := by
  by_cases hlook : (b.final_messages.lookup mid).isSome
  · unfold finalize_message
    rw [if_neg hmid]
    have hlen : (dictInsert b.final_messages mid
        (setdefaultAppend d
          (String.join ((b.partial_chunks.lookup mid).getD [])))).length =
        b.final_messages.length :=
      dictInsert_length_of_lookup_isSome _ _ _ hlook
    rw [enforce_capacity_of_le b.max_size _ (by rw [hlen]; exact hfin)]
    exact lookup_dictInsert_self _ _ _
  · have hnone : b.final_messages.lookup mid = none := by
      cases hl : b.final_messages.lookup mid with
      | none => rfl
      | some w => rw [hl] at hlook; simp at hlook
    rw [finalize_fresh b mid d hmid hnone hfin]
    rw [List.drop_append_of_le_length (by omega)]
    exact lookup_append_single _ _ _ (lookup_drop_none _ _ _ hnone)

/-- Claim C5: the rolling-buffer invariant and FIFO eviction.
`add_partial_chunk` leaves the finalized map untouched and
`finalize_message` enforces `len(final_messages) <= max_size`
(`get_replay_after` is a pure observer in this embedding, so the
invariant trivially persists across it); finalizing `max_size + 1`
distinct non-empty ids into a fresh buffer leaves exactly `max_size`
entries with the first-ever-inserted id evicted; and chunks `"a"` then
`"b"` finalize to a content entry ending in `"ab"`, the partial entry
being removed. -/
theorem C5_buffer_capacity_fifo (b : RollingEventBuffer) (mid chunk : String)
    (d : EventData) (ids : List String) (max_size : Nat) :
    (add_partial_chunk b mid chunk).final_messages = b.final_messages ∧
    (b.final_messages.length ≤ b.max_size →
      (finalize_message b mid d).final_messages.length ≤ b.max_size) ∧
    (ids.Nodup → (∀ id ∈ ids, id ≠ "") → ids.length = max_size + 1 →
      (finalizeAll (RollingEventBuffer.empty max_size) d ids).final_messages.length =
        max_size ∧
      (finalizeAll (RollingEventBuffer.empty max_size) d ids).final_messages.map
        Prod.fst = ids.drop 1) ∧
    (mid ≠ "" → b.partial_chunks.lookup mid = none →
      b.final_messages.length ≤ b.max_size → 1 ≤ b.max_size →
      (finalize_message (add_partial_chunk (add_partial_chunk b mid "a") mid "b")
        mid d).final_messages.lookup mid = some (setdefaultAppend d "ab") ∧
      (finalize_message (add_partial_chunk (add_partial_chunk b mid "a") mid "b")
        mid d).partial_chunks.lookup mid = none) := by
  refine ⟨?_, ?_, ?_, ?_⟩
  · unfold add_partial_chunk
    by_cases hmid : mid = ""
    · rw [if_pos hmid]
    · rw [if_neg hmid]
  · intro hfin
    have h := finalize_message_length_le b mid d hfin
    rwa [finalize_message_max_size] at h
  · intro hnodup hne hlen
    obtain ⟨hk, hm, hl⟩ := finalizeAll_keys d ids (RollingEventBuffer.empty max_size)
      hnodup hne (fun id _ => rfl) (by simp [RollingEventBuffer.empty])
    constructor
    · rw [hl]
      simp [RollingEventBuffer.empty, hlen]
    · rw [hk]
      have hidx : (RollingEventBuffer.empty max_size).final_messages.length +
          ids.length - (RollingEventBuffer.empty max_size).max_size = 1 := by
        simp [RollingEventBuffer.empty, hlen]
      rw [hidx]
      simp [RollingEventBuffer.empty]
  · intro hmid hpc hfin hmax
    have hb1 : add_partial_chunk b mid "a" =
        { b with partial_chunks := dictInsert b.partial_chunks mid ["a"] } := by
      unfold add_partial_chunk
      rw [if_neg hmid, hpc]
      rfl
    have hb2 : add_partial_chunk (add_partial_chunk b mid "a") mid "b" =
        { b with partial_chunks :=
            dictInsert (dictInsert b.partial_chunks mid ["a"]) mid ["a", "b"] } := by
      rw [hb1]
      unfold add_partial_chunk
      rw [if_neg hmid]
      have hl1 : (dictInsert b.partial_chunks mid ["a"]).lookup mid = some ["a"] :=
        lookup_dictInsert_self _ _ _
      dsimp only
      rw [hl1]
      rfl
    rw [hb2]
    constructor
    · have h := lookup_finalize_self
        { b with partial_chunks :=
            dictInsert (dictInsert b.partial_chunks mid ["a"]) mid ["a", "b"] }
        mid d hmid hfin hmax
      dsimp only at h
      rw [lookup_dictInsert_self] at h
      exact h
    · rw [finalize_message_partial_chunks _ _ _ hmid]
      exact lookup_dictRemove_self _ _

/-- Witness for C5 at capacity 2 with three distinct finalized ids and a
concrete chunk pair. -/
theorem C5_buffer_capacity_fifo_witness :
    (add_partial_chunk (RollingEventBuffer.empty 2) "m" "x").final_messages =
      (RollingEventBuffer.empty 2).final_messages ∧
    (finalize_message (RollingEventBuffer.empty 2) "m"
      (EventData.mk none [])).final_messages.length ≤
      (RollingEventBuffer.empty 2).max_size ∧
    ((finalizeAll (RollingEventBuffer.empty 2) (EventData.mk none [])
        ["m1", "m2", "m3"]).final_messages.length = 2 ∧
     (finalizeAll (RollingEventBuffer.empty 2) (EventData.mk none [])
        ["m1", "m2", "m3"]).final_messages.map Prod.fst =
       ["m1", "m2", "m3"].drop 1) ∧
    ((finalize_message (add_partial_chunk
        (add_partial_chunk (RollingEventBuffer.empty 2) "m" "a") "m" "b") "m"
        (EventData.mk none [])).final_messages.lookup "m" =
      some (setdefaultAppend (EventData.mk none []) "ab") ∧
     (finalize_message (add_partial_chunk
        (add_partial_chunk (RollingEventBuffer.empty 2) "m" "a") "m" "b") "m"
        (EventData.mk none [])).partial_chunks.lookup "m" = none) := by
  obtain ⟨h1, h2, h3, h4⟩ := C5_buffer_capacity_fifo (RollingEventBuffer.empty 2)
    "m" "x" (EventData.mk none []) ["m1", "m2", "m3"] 2
  exact ⟨h1, h2 (by decide), h3 (by decide) (by decide) (by decide),
    h4 (by decide) (by decide) (by decide) (by decide)⟩

/-- Claim C9: `finalize_message` is not idempotent in content.  Finalizing
a non-empty id stores the payload with one appended combined-chunk entry;
finalizing the same id again with the stored event (in the source the
caller's `event_data` dict and the stored dict are the same object)
appends a second combined entry — the empty string, the chunks having
been consumed — so the stored content sequence grows by one instead of
remaining unchanged. -/
theorem C9_finalize_message_not_idempotent (b : RollingEventBuffer) (mid : String)
    (d : EventData) (hmid : mid ≠ "") (hfin : b.final_messages.length ≤ b.max_size)
    (hmax : 1 ≤ b.max_size) :
    (finalize_message b mid d).final_messages.lookup mid =
      some (setdefaultAppend d
        (String.join ((b.partial_chunks.lookup mid).getD []))) ∧
    (finalize_message (finalize_message b mid d) mid
      (setdefaultAppend d
        (String.join ((b.partial_chunks.lookup mid).getD [])))).final_messages.lookup
        mid =
      some (setdefaultAppend
        (setdefaultAppend d (String.join ((b.partial_chunks.lookup mid).getD []))) "") ∧
    ((setdefaultAppend
        (setdefaultAppend d (String.join ((b.partial_chunks.lookup mid).getD [])))
        "").content.getD []).length =
      ((setdefaultAppend d
        (String.join ((b.partial_chunks.lookup mid).getD []))).content.getD []).length +
        1 := by
  refine ⟨lookup_finalize_self b mid d hmid hfin hmax, ?_, ?_⟩
  · have hfin1 : (finalize_message b mid d).final_messages.length ≤
        (finalize_message b mid d).max_size :=
      finalize_message_length_le b mid d hfin
    have hmax1 : 1 ≤ (finalize_message b mid d).max_size := by
      rw [finalize_message_max_size]
      exact hmax
    have h := lookup_finalize_self (finalize_message b mid d) mid
      (setdefaultAppend d (String.join ((b.partial_chunks.lookup mid).getD [])))
      hmid hfin1 hmax1
    rw [finalize_message_partial_chunks b mid d hmid, lookup_dictRemove_self] at h
    exact h
  · simp [setdefaultAppend]

/-- Witness for C9 on a fresh buffer of capacity 3 with one pending
chunk. -/
theorem C9_finalize_message_not_idempotent_witness :
    (finalize_message (add_partial_chunk (RollingEventBuffer.empty 3) "m" "hi") "m"
      (EventData.mk none [])).final_messages.lookup "m" =
      some (setdefaultAppend (EventData.mk none [])
        (String.join (((add_partial_chunk (RollingEventBuffer.empty 3) "m"
          "hi").partial_chunks.lookup "m").getD []))) ∧
    (finalize_message
      (finalize_message (add_partial_chunk (RollingEventBuffer.empty 3) "m" "hi") "m"
        (EventData.mk none [])) "m"
      (setdefaultAppend (EventData.mk none [])
        (String.join (((add_partial_chunk (RollingEventBuffer.empty 3) "m"
          "hi").partial_chunks.lookup "m").getD [])))).final_messages.lookup "m" =
      some (setdefaultAppend
        (setdefaultAppend (EventData.mk none [])
          (String.join (((add_partial_chunk (RollingEventBuffer.empty 3) "m"
            "hi").partial_chunks.lookup "m").getD []))) "") ∧
    ((setdefaultAppend
        (setdefaultAppend (EventData.mk none [])
          (String.join (((add_partial_chunk (RollingEventBuffer.empty 3) "m"
            "hi").partial_chunks.lookup "m").getD []))) "").content.getD []).length =
      ((setdefaultAppend (EventData.mk none [])
        (String.join (((add_partial_chunk (RollingEventBuffer.empty 3) "m"
          "hi").partial_chunks.lookup "m").getD []))).content.getD []).length + 1 :=
  C9_finalize_message_not_idempotent
    (add_partial_chunk (RollingEventBuffer.empty 3) "m" "hi") "m"
    (EventData.mk none []) (by decide) (by decide) (by decide)
